import Mathlib

/-!
# Verification of `src/tools/image_press.py` (ImagePressTool)

Shallow embedding of the Dify image-compression tool. The tool has two parts:

* `_invoke` — resolves the input (upload value or URL fetch), decodes it with
  PIL, calls `_compress_image`, and emits a JSON info message followed by a
  blob message, or a single text message on any error.
* `_compress_image` — decides output format/MIME, sweeps the encoder quality
  downward in steps of 5 while `quality > 60` and the encoded size exceeds
  the target, then (if still too large) applies one sqrt-scaled resize and
  re-encodes once.

PIL itself (encoder, decoder, LANCZOS resampling) and the float computation
`int(w * sqrt(target/size))` are external to the repository; they are
abstracted as the parameter structure `PILModel`. All control flow, the
parameters passed to each `save` call, the loop structure, and the contents
of the result record are translated directly from the source. Machine floats
appear only in `scale_factor` and in the rounded KB fields of the info
record; the model keeps exact byte counts and abstracts the scaled
dimensions as `PILModel.scaleDims`.
-/

namespace ImagePress

/-- Byte strings are modelled as lists of byte values. -/
abbrev ByteSeq := List Nat

/-- A decoded PIL image: its dimensions plus an abstract identifier for the
pixel contents (the encoder may depend on it). -/
structure PILImage where
  width : Nat
  height : Nat
  content : Nat
deriving DecidableEq

/-- The keyword arguments of one `Image.save` call in the source.
`quality = none` / `lossless = none` mean the keyword was not passed;
`optimize` defaults to `false` when not passed. -/
structure SaveParams where
  format : String
  quality : Option Int
  optimize : Bool
  lossless : Option Bool
deriving DecidableEq

/-- Abstraction of the external PIL library and of the float arithmetic in
`_compress_image`:

* `encodeBytes img p` — the bytes `img.save(buffer, **p)` writes;
* `decode data` — `Image.open(BytesIO(data))`: `none` models a decode
  exception, otherwise the image together with `image.format`
  (`none` models a `None` format tag);
* `resizeContent c w h` — pixel contents of `resize((w,h), LANCZOS)` applied
  to contents `c`;
* `scaleDims target size w h` — the pair
  `(int(w * scale_factor), int(h * scale_factor))` for
  `scale_factor = (target/size) ** 0.5`, abstracting the float sqrt. -/
structure PILModel where
  encodeBytes : PILImage → SaveParams → ByteSeq
  decode : ByteSeq → Option (PILImage × Option String)
  resizeContent : Nat → Nat → Nat → Nat
  scaleDims : Nat → Nat → Nat → Nat → Nat × Nat

/-- The call `current_image.resize((w, h), Image.Resampling.LANCZOS)`:
returns a new image, never mutates its receiver. -/
def pilResize (m : PILModel) (img : PILImage) (w h : Nat) : PILImage :=
  ⟨w, h, m.resizeContent img.content w h⟩

/-- The `save` keyword arguments used by the quality loop and the fallback
re-encode (lines 214–221 and 244–251): JPEG gets `quality=q, optimize=True`,
PNG only `optimize=True`, WEBP `quality=q, lossless=False`, anything else
`quality=q, optimize=True`. -/
def saveParamsFor (format_used : String) (q : Int) : SaveParams :=
  if format_used = "JPEG" then ⟨"JPEG", some q, true, none⟩
  else if format_used = "PNG" then ⟨"PNG", none, true, none⟩
  else if format_used = "WEBP" then ⟨"WEBP", some q, false, some false⟩
  else ⟨format_used, some q, true, none⟩

/-- Length of the encode of `img` at quality `q` for `format_used`. -/
def encSize (m : PILModel) (img : PILImage) (format_used : String) (q : Int) : Nat :=
  (m.encodeBytes img (saveParamsFor format_used q)).length

/-- Python `str.upper()` on the ASCII format names this tool handles,
written as a direct character map (the core `String.toUpper` is not
kernel-reducible). -/
def strUpper (s : String) : String := ⟨s.data.map Char.toUpper⟩

/-- Python `str.lower()`, as a direct character map. -/
def strLower (s : String) : String := ⟨s.data.map Char.toLower⟩

/-- Output format decision (lines 192–208): pure function of
`(output_format, original_format)` giving `(format_used, mime_type)`. -/
def formatDecision (output_format original_format : String) : String × String :=
  if output_format = "auto" then
    if original_format = "JPEG" ∨ original_format = "JPG" then ("JPEG", "image/jpeg")
    else if original_format = "PNG" then ("PNG", "image/png")
    else if original_format = "WEBP" then ("WEBP", "image/webp")
    else ("JPEG", "image/jpeg")
  else (strUpper output_format, "image/" ++ strLower output_format)

/-- Outcome of the quality loop (lines 211–228).
`finalQuality` is `current_quality` when the loop exits; `sizeOpt` is the
value of `current_size` after the loop, `none` when the body never ran (the
variable is then unbound); `attempts` lists the quality of every `save`
performed, in order. -/
structure SweepResult where
  finalQuality : Int
  sizeOpt : Option Nat
  attempts : List Int
deriving DecidableEq

/-- One structural unrolling of the quality loop, on explicit fuel. The
fuel is a termination device only: `sweepAux_fuel_irrel` shows any fuel
`≥ (q - 60).toNat` gives the same result, and `qualitySweep_eq` recovers
the exact while-loop equation. -/
def sweepAux (m : PILModel) (img : PILImage) (format_used : String)
    (target : Nat) : Nat → Int → SweepResult
  | 0, q => ⟨q, none, []⟩
  | Nat.succ n, q =>
    if 60 < q then
      let size := encSize m img format_used q
      if size ≤ target then ⟨q, some size, [q]⟩
      else
        let r := sweepAux m img format_used target n (q - 5)
        ⟨r.finalQuality, some (r.sizeOpt.getD size), q :: r.attempts⟩
    else ⟨q, none, []⟩

/-- The quality loop (lines 211–228):
`while current_quality > 60: encode; if size <= target: break; quality -= 5`. -/
def qualitySweep (m : PILModel) (img : PILImage) (format_used : String)
    (target : Nat) (q : Int) : SweepResult :=
  sweepAux m img format_used target (q - 60).toNat q

/-- The message of the `UnboundLocalError` that line 232 raises when the
quality loop body never ran and `current_size` was never assigned. -/
def unboundLocalMsg : String := "local variable referenced before assignment"

/-- The `compression_info` dict built at lines 255–263. -/
structure CompressionInfo where
  size : Nat
  format_used : String
  width : Nat
  height : Nat
  quality_used : Int
  was_resized : Bool
  mime_type : String
deriving DecidableEq

/-- Trace of the image operations `_compress_image` performs: each `save`
(with the dimensions of the image being encoded and the keyword arguments
used) and each `resize`. -/
inductive PEvent where
  | saveEv (width height : Nat) (p : SaveParams)
  | resizeEv (newWidth newHeight : Nat)
deriving DecidableEq

/-- Discriminators on `PEvent`, for counting encode attempts and resizes. -/
def PEvent.isSave : PEvent → Bool
  | .saveEv _ _ _ => true
  | .resizeEv _ _ => false

def PEvent.isResize : PEvent → Bool
  | .saveEv _ _ _ => false
  | .resizeEv _ _ => true

/-- The method `_compress_image` (lines 160–265). Returns the result together with the
trace of image operations. The `.error` case models the
`UnboundLocalError` raised at line 232 when the quality loop body never ran
and `current_size` is read unassigned; `_invoke` catches it at top level. -/
def compressImage (m : PILModel) (image : PILImage) (target_size_kb : Nat)
    (quality : Int) (output_format original_format : String) :
    Except String (PILImage × CompressionInfo) × List PEvent :=
  let target_size_bytes := target_size_kb * 1024
  -- `current_image = image.copy()` — an independent image with equal value
  let current_image := image
  let img_width := current_image.width
  let img_height := current_image.height
  let fm := formatDecision output_format original_format
  let format_used := fm.1
  let mime_type := fm.2
  let s := qualitySweep m current_image format_used target_size_bytes quality
  let current_quality := s.finalQuality
  let sweepEvents := s.attempts.map
    (fun a => PEvent.saveEv img_width img_height (saveParamsFor format_used a))
  match s.sizeOpt with
  | none => (.error unboundLocalMsg, sweepEvents)
  | some size0 =>
    if target_size_bytes < size0 then
      let nd := m.scaleDims target_size_bytes size0 img_width img_height
      let resized := pilResize m current_image nd.1 nd.2
      let size1 := encSize m resized format_used current_quality
      (.ok (resized,
            ⟨size1, format_used, img_width, img_height, current_quality, true, mime_type⟩),
       sweepEvents ++
         [PEvent.resizeEv nd.1 nd.2,
          PEvent.saveEv nd.1 nd.2 (saveParamsFor format_used current_quality)])
    else
      (.ok (current_image,
            ⟨size0, format_used, img_width, img_height, current_quality, false, mime_type⟩),
       sweepEvents)

/-! ## The `_invoke` entry point -/

/-- The shapes the upload value may take (lines 37–84). `typedFile` is the
dify `File` object (checked via `isinstance`, carrying `.type` and `.blob`);
`rawBytes` stands for the duck-typed fallbacks that successfully normalize
to a byte string (`.content` attribute, base64 string decode, tuple second
element, `.read()`, `bytes(...)` coercion); `badShape` stands for a value
whose coercion raises `ValueError` (caught by the top-level handler). -/
inductive UploadValue where
  | typedFile (ftype : String) (blob : ByteSeq)
  | rawBytes (data : ByteSeq)
  | badShape (desc : String)
deriving DecidableEq

/-- Python truthiness of the `image_file` parameter (`if not image_file`):
`None` and an empty byte string are falsy; `File` objects and the other
object shapes are truthy. -/
def uploadTruthy : Option UploadValue → Bool
  | none => false
  | some (.typedFile _ _) => true
  | some (.rawBytes d) => !d.isEmpty
  | some (.badShape _) => true

/-- Outcome of `requests.get(image_url, timeout=30)` followed by
`raise_for_status()`: either the response body, or a
`requests.RequestException` (non-success HTTP status or network failure)
carrying its message. -/
inductive FetchOutcome where
  | success (content : ByteSeq)
  | failure (msg : String)
deriving DecidableEq

/-- The `info` dict of lines 132–145. The source stores
`round(original_size/1024, 2)` and `round(size/1024, 2)` as the two KB
fields and a percentage ratio rounded to one decimal; the model keeps the
exact byte counts from which those floats are computed (the claims concern
them only up to that rounding), and drops the constant-derived ratio
field. -/
structure InvokeInfo where
  status : String
  message : String
  input_type : String
  original_size : Nat
  compressed_size : Nat
  format_used : String
  width : Nat
  height : Nat
  quality_used : Int
  was_resized : Bool
  mime_type : String
deriving DecidableEq

/-- The messages `_invoke` yields. -/
inductive Message where
  | text (s : String)
  | json (info : InvokeInfo)
  | blob (bytes : ByteSeq) (mime : String)
deriving DecidableEq

def Message.isText : Message → Bool
  | .text _ => true
  | _ => false

def Message.isJson : Message → Bool
  | .json _ => true
  | _ => false

def Message.isBlob : Message → Bool
  | .blob _ _ => true
  | _ => false

/-- Effects of one `_invoke` call: each HTTP GET (with the timeout
passed to `requests.get`, in seconds) and each decode attempt
(`Image.open`). -/
inductive Eff where
  | fetchEff (url : String) (timeoutSec : Nat)
  | decodeEff (data : ByteSeq)
deriving DecidableEq

def Eff.isFetch : Eff → Bool
  | .fetchEff _ _ => true
  | .decodeEff _ => false

/-- Result of one `_invoke` call: the yielded messages, in order, and the
trace of I/O effects performed. -/
structure InvokeResult where
  messages : List Message
  effs : List Eff
deriving DecidableEq

/-- Lines 119–154: common tail of both input branches once a byte string
`data` has been obtained — decode it, compress, build the info record, and
re-encode the final image for the blob message. A decode exception or the
`UnboundLocalError` escaping `_compress_image` is caught by the top-level
`except` (lines 156–158), which yields a single text message. Note the blob
at line 149 is produced by a fresh `save` passing only `format=` — no
`quality`/`optimize` keywords — not by reusing the bytes measured during
the search. -/
def invokeAfterBytes (m : PILModel) (data : ByteSeq) (input_type : String)
    (target_size_kb : Nat) (quality : Int) (output_format : String)
    (effs0 : List Eff) : InvokeResult :=
  match m.decode data with
  | none =>
    ⟨[.text "图片压缩失败: cannot identify image file"], effs0 ++ [.decodeEff data]⟩
  | some (image, fmtTag) =>
    let original_size := data.length
    let original_format := fmtTag.getD "JPEG"
    match (compressImage m image target_size_kb quality output_format original_format).1 with
    | .error e => ⟨[.text ("图片压缩失败: " ++ e)], effs0 ++ [.decodeEff data]⟩
    | .ok (compressed_image, ci) =>
      let info : InvokeInfo :=
        ⟨"success", "图片压缩成功", input_type, original_size, ci.size,
         ci.format_used, ci.width, ci.height, ci.quality_used, ci.was_resized, ci.mime_type⟩
      let compressed_bytes :=
        m.encodeBytes compressed_image ⟨ci.format_used, none, false, none⟩
      ⟨[.json info, .blob compressed_bytes ci.mime_type], effs0 ++ [.decodeEff data]⟩

/-- The method `_invoke` (lines 17–158). `fetch` abstracts the network; the parameter
defaults of lines 20–24 (`target_size_kb = 200`, `quality = 85`,
`format = "auto"`, `image_url = ""`) are applied by the caller. -/
def invoke (m : PILModel) (fetch : String → FetchOutcome)
    (image_file : Option UploadValue) (image_url : String)
    (target_size_kb : Nat) (quality : Int) (output_format : String) : InvokeResult :=
  if !uploadTruthy image_file && image_url == "" then
    ⟨[.text "错误：请提供图片文件或图片链接"], []⟩
  else if uploadTruthy image_file then
    match image_file with
    | some (.typedFile ftype blob) =>
      if ftype ≠ "image" then
        ⟨[.text ("错误：文件类型不是图片，当前类型: " ++ ftype)], []⟩
      else
        invokeAfterBytes m blob "file" target_size_kb quality output_format []
    | some (.rawBytes data) =>
      invokeAfterBytes m data "file" target_size_kb quality output_format []
    | some (.badShape desc) =>
      -- the coercion `bytes(image_file)` raised; caught at top level
      ⟨[.text ("图片压缩失败: 无法将 " ++ desc ++ " 类型的文件对象转换为字节数据")], []⟩
    | none =>
      -- unreachable: `uploadTruthy none = false`
      ⟨[], []⟩
  else
    -- `elif image_url:` — reached only when the upload value is falsy and
    -- the URL is non-empty (the first check already handled both-falsy)
    match fetch image_url with
    | .failure msg =>
      ⟨[.text ("下载图片失败: " ++ msg)], [.fetchEff image_url 30]⟩
    | .success content =>
      invokeAfterBytes m content "url" target_size_kb quality output_format
        [.fetchEff image_url 30]

/-! ## Heap-instrumented `_compress_image`

PIL image objects live on a heap and could in principle be mutated in
place; to state that `_compress_image` leaves its argument untouched we
re-run the same control flow over an explicit store of images. References
are indices; `image.copy()` and `resize` (which returns a fresh image)
allocate, `save` only reads. -/

abbrev Heap := List PILImage

def heapGet (h : Heap) (r : Nat) : PILImage := h.getD r ⟨0, 0, 0⟩

/-- The method `_compress_image` over an explicit image store: identical control flow
to `compressImage`, but `image.copy()` at line 171 and the `resize` at
line 239 allocate new cells instead of producing values in place. Returns
the final store and (a reference to) the result. -/
def compressImageH (m : PILModel) (h : Heap) (imageRef : Nat)
    (target_size_kb : Nat) (quality : Int)
    (output_format original_format : String) :
    Heap × Except String (Nat × CompressionInfo) :=
  let target_size_bytes := target_size_kb * 1024
  let img := heapGet h imageRef
  -- current_image = image.copy()
  let h1 := h ++ [img]
  let curRef := h.length
  let current_image := heapGet h1 curRef
  let img_width := current_image.width
  let img_height := current_image.height
  let fm := formatDecision output_format original_format
  let format_used := fm.1
  let mime_type := fm.2
  let s := qualitySweep m current_image format_used target_size_bytes quality
  let current_quality := s.finalQuality
  match s.sizeOpt with
  | none => (h1, .error unboundLocalMsg)
  | some size0 =>
    if target_size_bytes < size0 then
      let nd := m.scaleDims target_size_bytes size0 img_width img_height
      let resized := pilResize m current_image nd.1 nd.2
      let h2 := h1 ++ [resized]
      let resRef := h1.length
      let size1 := encSize m (heapGet h2 resRef) format_used current_quality
      (h2, .ok (resRef,
        ⟨size1, format_used, img_width, img_height, current_quality, true, mime_type⟩))
    else
      (h1, .ok (curRef,
        ⟨size0, format_used, img_width, img_height, current_quality, false, mime_type⟩))

/-! ## Concrete instantiations used by witnesses and counterexamples -/

/-- A byte string of `n` zero bytes. -/
def zeros (n : Nat) : ByteSeq := List.replicate n 0

/-- A model whose encoder always emits 10 bytes and whose decoder yields a
2000 × 2000 image (pixel area 4,000,000). -/
def mUnder : PILModel :=
  { encodeBytes := fun _ _ => zeros 10
    decode := fun d => if d.isEmpty then none else some (⟨2000, 2000, 7⟩, some "JPEG")
    resizeContent := fun c _ _ => c
    scaleDims := fun _ _ w h => (w / 2, h / 2) }

/-- A quality-monotone encoder: 1000 bytes at qualities ≤ 70, 2000 bytes at
higher qualities and at the library default quality (75, used when the
`quality` keyword is not passed — as in the final `save` of `_invoke`
line 149). Decoder yields a 100 × 100 image. -/
def mC1 : PILModel :=
  { encodeBytes := fun _ p => if p.quality.getD 75 ≤ 70 then zeros 1000 else zeros 2000
    decode := fun _ => some (⟨100, 100, 0⟩, some "JPEG")
    resizeContent := fun c _ _ => c
    scaleDims := fun _ _ w h => (w / 2, h / 2) }

/-- The run of `_invoke` exhibiting the blob re-encode bug: upload one byte,
`target_size_kb = 1`, `quality = 85`, `format = "auto"`. -/
def c1Run : InvokeResult :=
  invoke mC1 (fun _ => .failure "") (some (.rawBytes [0])) "" 1 85 "auto"

/-- An encoder that emits 4096 bytes for 100-pixel-wide images and 100 bytes
otherwise. With `target_size_bytes = 1024` and `current_size = 4096`, the
source computes `scale_factor = (1024/4096) ** 0.5 = 0.5`, which is exact in
binary floating point, so `int(100 * 0.5) = 50 = 100 / 2`: the `scaleDims`
below agrees with the real float computation on the run it is used for. -/
def mC3 : PILModel :=
  { encodeBytes := fun img _ =>
      if img.width = 100 then zeros 4096 else zeros 100
    decode := fun _ => some (⟨100, 100, 0⟩, some "JPEG")
    resizeContent := fun c _ _ => c
    scaleDims := fun _ _ w h => (w / 2, h / 2) }

/-- An encoder that always emits 2000 bytes, so every attempt exceeds a
1 KB target. -/
def mBig : PILModel :=
  { encodeBytes := fun _ _ => zeros 2000
    decode := fun _ => some (⟨100, 100, 0⟩, some "JPEG")
    resizeContent := fun c _ _ => c
    scaleDims := fun _ _ w h => (w / 2, h / 2) }

/-- A network that always fails with an HTTP 404 error. -/
def fetch404 : String → FetchOutcome := fun _ => .failure "404 Client Error"

/-! ## Lemmas about the quality loop -/

theorem sweepAux_of_le60 (m : PILModel) (img : PILImage) (fmt : String)
    (t : Nat) (fuel : Nat) (q : Int) (hq : ¬ 60 < q) :
    sweepAux m img fmt t fuel q = ⟨q, none, []⟩ := by
  cases fuel with
  | zero => rfl
  | succ n => simp [sweepAux, hq]

theorem sweepAux_fuel_irrel (m : PILModel) (img : PILImage) (fmt : String)
    (t : Nat) :
    ∀ f1 f2 : Nat, ∀ q : Int, (q - 60).toNat ≤ f1 → (q - 60).toNat ≤ f2 →
      sweepAux m img fmt t f1 q = sweepAux m img fmt t f2 q := by
  intro f1
  induction f1 with
  | zero =>
    intro f2 q h1 _
    have hq : ¬ 60 < q := by omega
    rw [sweepAux_of_le60 m img fmt t 0 q hq, sweepAux_of_le60 m img fmt t f2 q hq]
  | succ n ih =>
    intro f2 q h1 h2
    cases f2 with
    | zero =>
      have hq : ¬ 60 < q := by omega
      rw [sweepAux_of_le60 m img fmt t (n + 1) q hq, sweepAux_of_le60 m img fmt t 0 q hq]
    | succ k =>
      by_cases hq : 60 < q
      · simp only [sweepAux, if_pos hq]
        by_cases hs : encSize m img fmt q ≤ t
        · simp [hs]
        · simp only [if_neg hs]
          rw [ih k (q - 5) (by omega) (by omega)]
      · simp [sweepAux, hq]

/-- The defining equation of the while loop of lines 211–228. -/
theorem qualitySweep_eq (m : PILModel) (img : PILImage) (fmt : String)
    (t : Nat) (q : Int) :
    qualitySweep m img fmt t q =
      if 60 < q then
        let size := encSize m img fmt q
        if size ≤ t then ⟨q, some size, [q]⟩
        else
          let r := qualitySweep m img fmt t (q - 5)
          ⟨r.finalQuality, some (r.sizeOpt.getD size), q :: r.attempts⟩
      else ⟨q, none, []⟩ := by
  by_cases hq : 60 < q
  · have hfuel : (q - 60).toNat = ((q - 60).toNat - 1) + 1 := by omega
    rw [qualitySweep, hfuel]
    simp only [sweepAux, if_pos hq]
    by_cases hs : encSize m img fmt q ≤ t
    · simp [hs]
    · simp only [if_neg hs, hq, if_true]
      rw [sweepAux_fuel_irrel m img fmt t ((q - 60).toNat - 1) ((q - 5 - 60).toNat) (q - 5)
        (by omega) (by omega)]
      simp [qualitySweep, hs]
  · rw [qualitySweep, sweepAux_of_le60 m img fmt t _ q hq]
    simp [hq]

theorem qualitySweep_of_le60 (m : PILModel) (img : PILImage) (fmt : String)
    (t : Nat) (q : Int) (hq : ¬ 60 < q) :
    qualitySweep m img fmt t q = ⟨q, none, []⟩ := by
  rw [qualitySweep, sweepAux_of_le60 m img fmt t _ q hq]

/-- Every attempt of the sweep starting at `q` is `q - 5 * i`. -/
theorem sweep_attempts_get (m : PILModel) (img : PILImage) (fmt : String)
    (t : Nat) :
    ∀ fuel : Nat, ∀ q : Int, ∀ i : Nat,
      i < (sweepAux m img fmt t fuel q).attempts.length →
      (sweepAux m img fmt t fuel q).attempts.get? i = some (q - 5 * i) := by
  intro fuel
  induction fuel with
  | zero => intro q i hi; simp [sweepAux] at hi
  | succ n ih =>
    intro q i hi
    by_cases hq : 60 < q
    · by_cases hs : encSize m img fmt q ≤ t
      · simp only [sweepAux, if_pos hq, if_pos hs, List.length_singleton] at hi ⊢
        have hi0 : i = 0 := by omega
        subst hi0
        simp
      · simp only [sweepAux, if_pos hq, if_neg hs] at hi ⊢
        cases i with
        | zero => simp
        | succ j =>
          simp only [List.length_cons, Nat.succ_lt_succ_iff] at hi
          have := ih (q - 5) j hi
          simp only [List.get?_cons_succ, this]
          congr 1
          push_cast
          ring
    · rw [sweepAux_of_le60 m img fmt t _ q hq] at hi
      simp at hi

/-- Every attempted quality is above 60. -/
theorem sweep_attempts_gt60 (m : PILModel) (img : PILImage) (fmt : String)
    (t : Nat) :
    ∀ fuel : Nat, ∀ q : Int, ∀ a ∈ (sweepAux m img fmt t fuel q).attempts, 60 < a := by
  intro fuel
  induction fuel with
  | zero => intro q a ha; simp [sweepAux] at ha
  | succ n ih =>
    intro q a ha
    by_cases hq : 60 < q
    · by_cases hs : encSize m img fmt q ≤ t
      · simp only [sweepAux, if_pos hq, if_pos hs] at ha
        simp only [List.mem_singleton] at ha
        omega
      · simp only [sweepAux, if_pos hq, if_neg hs, List.mem_cons] at ha
        rcases ha with rfl | ha
        · exact hq
        · exact ih (q - 5) a ha
    · rw [sweepAux_of_le60 m img fmt t _ q hq] at ha
      simp at ha

/-- The number of sweep attempts is at most `⌈(q - 60) / 5⌉`. -/
theorem sweep_attempts_len (m : PILModel) (img : PILImage) (fmt : String)
    (t : Nat) :
    ∀ fuel : Nat, ∀ q : Int,
      (sweepAux m img fmt t fuel q).attempts.length ≤ ((q - 60).toNat + 4) / 5 := by
  intro fuel
  induction fuel with
  | zero => intro q; simp [sweepAux]
  | succ n ih =>
    intro q
    by_cases hq : 60 < q
    · by_cases hs : encSize m img fmt q ≤ t
      · simp only [sweepAux, if_pos hq, if_pos hs, List.length_singleton]
        omega
      · simp only [sweepAux, if_pos hq, if_neg hs, List.length_cons]
        have := ih (q - 5)
        omega
    · rw [sweepAux_of_le60 m img fmt t _ q hq]
      simp

/-- All attempts before the last one exceeded the target. -/
theorem sweep_attempts_fail_before_last (m : PILModel) (img : PILImage)
    (fmt : String) (t : Nat) :
    ∀ fuel : Nat, ∀ q : Int, ∀ i : Nat,
      i + 1 < (sweepAux m img fmt t fuel q).attempts.length →
      t < encSize m img fmt (q - 5 * i) := by
  intro fuel
  induction fuel with
  | zero => intro q i hi; simp [sweepAux] at hi
  | succ n ih =>
    intro q i hi
    by_cases hq : 60 < q
    · by_cases hs : encSize m img fmt q ≤ t
      · simp only [sweepAux, if_pos hq, if_pos hs, List.length_singleton] at hi
        omega
      · simp only [sweepAux, if_pos hq, if_neg hs, List.length_cons] at hi
        cases i with
        | zero => simpa using Nat.lt_of_not_le hs
        | succ j =>
          have := ih (q - 5) j (by omega)
          have harg : q - 5 - 5 * (j : Int) = q - 5 * ((j : Int) + 1) := by ring
          rw [harg] at this
          simpa [Nat.cast_succ] using this
    · rw [sweepAux_of_le60 m img fmt t _ q hq] at hi
      simp at hi

/-- When the loop runs (`60 < q`), it stops at the last attempt `a`, which
either met the target or was the last quality above 60; `current_size` holds
the encode size at `a`, and `current_quality` is `a` on a break and `a - 5`
on a guard exit. -/
theorem sweepAux_last (m : PILModel) (img : PILImage) (fmt : String)
    (t : Nat) :
    ∀ fuel : Nat, ∀ q : Int, (q - 60).toNat ≤ fuel → 60 < q →
      (sweepAux m img fmt t fuel q).attempts ≠ [] ∧
      ∀ a, (sweepAux m img fmt t fuel q).attempts.getLast? = some a →
        (sweepAux m img fmt t fuel q).sizeOpt = some (encSize m img fmt a) ∧
        (encSize m img fmt a ≤ t ∨ a - 5 ≤ 60) ∧
        (sweepAux m img fmt t fuel q).finalQuality =
          (if encSize m img fmt a ≤ t then a else a - 5) := by
  intro fuel
  induction fuel with
  | zero => intro q hf hq; omega
  | succ n ih =>
    intro q hf hq
    by_cases hs : encSize m img fmt q ≤ t
    · simp only [sweepAux, if_pos hq, if_pos hs]
      refine ⟨by simp, ?_⟩
      intro a ha
      simp only [List.getLast?_singleton, Option.some_inj] at ha
      subst ha
      exact ⟨rfl, Or.inl hs, by simp [hs]⟩
    · by_cases hq5 : 60 < q - 5
      · have hf5 : (q - 5 - 60).toNat ≤ n := by omega
        obtain ⟨hne, hlast⟩ := ih (q - 5) hf5 hq5
        simp only [sweepAux, if_pos hq, if_neg hs]
        obtain ⟨b, l, hbl⟩ : ∃ b l, (sweepAux m img fmt t n (q - 5)).attempts = b :: l := by
          cases h : (sweepAux m img fmt t n (q - 5)).attempts with
          | nil => exact absurd h hne
          | cons b l => exact ⟨b, l, rfl⟩
        refine ⟨by simp, ?_⟩
        intro a ha
        rw [hbl, List.getLast?_cons_cons] at ha
        obtain ⟨h1, h2, h3⟩ := hlast a (by rw [hbl]; exact ha)
        refine ⟨?_, h2, h3⟩
        rw [h1]
        rfl
      · have hr : sweepAux m img fmt t n (q - 5) = ⟨q - 5, none, []⟩ :=
          sweepAux_of_le60 m img fmt t n (q - 5) hq5
        simp only [sweepAux, if_pos hq, if_neg hs, hr]
        refine ⟨by simp, ?_⟩
        intro a ha
        simp only [List.getLast?_singleton, Option.some_inj] at ha
        subst ha
        exact ⟨rfl, Or.inr (by omega), by simp [hs]⟩

/-- The previous lemma, for `qualitySweep` itself. -/
theorem qualitySweep_last (m : PILModel) (img : PILImage) (fmt : String)
    (t : Nat) (q : Int) (hq : 60 < q) :
    (qualitySweep m img fmt t q).attempts ≠ [] ∧
    ∀ a, (qualitySweep m img fmt t q).attempts.getLast? = some a →
      (qualitySweep m img fmt t q).sizeOpt = some (encSize m img fmt a) ∧
      (encSize m img fmt a ≤ t ∨ a - 5 ≤ 60) ∧
      (qualitySweep m img fmt t q).finalQuality =
        (if encSize m img fmt a ≤ t then a else a - 5) :=
  sweepAux_last m img fmt t ((q - 60).toNat) q le_rfl hq

/-! ## Lemmas about `_compress_image` and `_invoke` -/

/-- With a starting quality of at most 60 the loop body never runs and
line 232 raises `UnboundLocalError`. -/
theorem compressImage_of_le60 (m : PILModel) (image : PILImage) (tkb : Nat)
    (q : Int) (ofmt ogfmt : String) (hq : ¬ 60 < q) :
    compressImage m image tkb q ofmt ogfmt = (.error unboundLocalMsg, []) := by
  simp only [compressImage]
  rw [qualitySweep_of_le60 m image (formatDecision ofmt ogfmt).1 (tkb * 1024) q hq]
  simp

/-- Unfolding of `_compress_image` when the quality loop ran: the result is
the fallback-resize branch or the direct success branch, according to
whether `current_size` still exceeds the target. -/
theorem compressImage_sweep_some (m : PILModel) (image : PILImage) (tkb : Nat)
    (q q' : Int) (sz : Nat) (att : List Int) (ofmt ogfmt fmt mime : String)
    (hfmt : formatDecision ofmt ogfmt = (fmt, mime))
    (hsw : qualitySweep m image fmt (tkb * 1024) q = ⟨q', some sz, att⟩) :
    compressImage m image tkb q ofmt ogfmt =
      if tkb * 1024 < sz then
        (.ok (pilResize m image
                (m.scaleDims (tkb * 1024) sz image.width image.height).1
                (m.scaleDims (tkb * 1024) sz image.width image.height).2,
              ⟨encSize m
                  (pilResize m image
                    (m.scaleDims (tkb * 1024) sz image.width image.height).1
                    (m.scaleDims (tkb * 1024) sz image.width image.height).2) fmt q',
               fmt, image.width, image.height, q', true, mime⟩),
         att.map (fun a => PEvent.saveEv image.width image.height (saveParamsFor fmt a)) ++
           [PEvent.resizeEv (m.scaleDims (tkb * 1024) sz image.width image.height).1
              (m.scaleDims (tkb * 1024) sz image.width image.height).2,
            PEvent.saveEv (m.scaleDims (tkb * 1024) sz image.width image.height).1
              (m.scaleDims (tkb * 1024) sz image.width image.height).2
              (saveParamsFor fmt q')])
      else
        (.ok (image, ⟨sz, fmt, image.width, image.height, q', false, mime⟩),
         att.map (fun a => PEvent.saveEv image.width image.height (saveParamsFor fmt a))) := by
  simp only [compressImage, hfmt, hsw]

/-- The effect trace of the shared tail of `_invoke`: one decode attempt,
appended to whatever effects the input branch performed. -/
theorem invokeAfterBytes_effs (m : PILModel) (data : ByteSeq) (it : String)
    (tkb : Nat) (q : Int) (ofmt : String) (effs0 : List Eff) :
    (invokeAfterBytes m data it tkb q ofmt effs0).effs = effs0 ++ [.decodeEff data] := by
  unfold invokeAfterBytes
  cases hm : m.decode data with
  | none => rfl
  | some p =>
    obtain ⟨image, fmtTag⟩ := p
    dsimp only
    split <;> rfl

/-! ## Evaluation lemmas for the concrete models -/

@[simp] theorem zeros_length (n : Nat) : (zeros n).length = n := by
  simp only [zeros, List.length_replicate]

theorem saveParamsFor_JPEG (q : Int) :
    saveParamsFor "JPEG" q = ⟨"JPEG", some q, true, none⟩ := rfl

theorem encSize_mUnder (img : PILImage) (fmt : String) (q : Int) :
    encSize mUnder img fmt q = 10 := by
  simp [encSize, mUnder]

theorem encSize_mC1 (img : PILImage) (q : Int) :
    encSize mC1 img "JPEG" q = if q ≤ 70 then 1000 else 2000 := by
  simp [encSize, mC1, saveParamsFor_JPEG, apply_ite List.length]

theorem encSize_mC3 (img : PILImage) (fmt : String) (q : Int) :
    encSize mC3 img fmt q = if img.width = 100 then 4096 else 100 := by
  simp [encSize, mC3, apply_ite List.length]

theorem encSize_mBig (img : PILImage) (fmt : String) (q : Int) :
    encSize mBig img fmt q = 2000 := by
  simp [encSize, mBig]

theorem sweep_mUnder_85 :
    qualitySweep mUnder ⟨2000, 2000, 7⟩ "JPEG" (200 * 1024) 85 = ⟨85, some 10, [85]⟩ := by
  rw [qualitySweep_eq]
  norm_num [encSize_mUnder]

theorem sweep_mC1_85 :
    qualitySweep mC1 ⟨100, 100, 0⟩ "JPEG" (1 * 1024) 85 =
      ⟨70, some 1000, [85, 80, 75, 70]⟩ := by
  simp [qualitySweep_eq, encSize_mC1]

theorem sweep_mC3_65 :
    qualitySweep mC3 ⟨100, 100, 0⟩ "JPEG" (1 * 1024) 65 = ⟨60, some 4096, [65]⟩ := by
  simp [qualitySweep_eq, encSize_mC3]

theorem sweep_mBig_100 :
    qualitySweep mBig ⟨100, 100, 0⟩ "JPEG" (1 * 1024) 100 =
      ⟨60, some 2000, [100, 95, 90, 85, 80, 75, 70, 65]⟩ := by
  simp [qualitySweep_eq, encSize_mBig]

theorem invoke_rawBytes (m : PILModel) (fetch : String → FetchOutcome)
    (data : ByteSeq) (tkb : Nat) (q : Int) (ofmt : String) (hne : data ≠ []) :
    invoke m fetch (some (.rawBytes data)) "" tkb q ofmt =
      invokeAfterBytes m data "file" tkb q ofmt [] := by
  have ht : uploadTruthy (some (.rawBytes data)) = true := by
    simp [uploadTruthy, hne]
  simp [invoke, ht]

/-! ## Claim theorems -/

/-- C1: the blob emitted at line 154 is produced by a fresh `save` passing
only the format (line 149), not the bytes of the configuration the search
accepted. On a run where the sweep stops at quality 70 with 1000 bytes
(under the 1 KB target), the emitted blob is the default-quality re-encode
of 2000 bytes, exceeding the target and disagreeing with the size reported
in the record. -/
theorem c1_blob_is_reencode_not_search_bytes :
    c1Run.messages =
      [.json ⟨"success", "图片压缩成功", "file", 1, 1000, "JPEG",
              100, 100, 70, false, "image/jpeg"⟩,
       .blob (zeros 2000) "image/jpeg"] ∧
    1000 ≤ 1 * 1024 ∧ 1 * 1024 < (zeros 2000).length := by
  have hc : compressImage mC1 ⟨100, 100, 0⟩ 1 85 "auto" "JPEG" =
      (.ok (⟨100, 100, 0⟩, ⟨1000, "JPEG", 100, 100, 70, false, "image/jpeg"⟩),
       [85, 80, 75, 70].map
         (fun a => PEvent.saveEv 100 100 (saveParamsFor "JPEG" a))) := by
    rw [compressImage_sweep_some mC1 ⟨100, 100, 0⟩ 1 85 70 1000 [85, 80, 75, 70]
      "auto" "JPEG" "JPEG" "image/jpeg" (by decide) sweep_mC1_85]
    norm_num
  refine ⟨?_, by norm_num, by rw [zeros_length]; norm_num⟩
  rw [c1Run, invoke_rawBytes mC1 (fun _ => .failure "") [0] 1 85 "auto" (by decide)]
  unfold invokeAfterBytes
  have hdec : mC1.decode [0] = some (⟨100, 100, 0⟩, some "JPEG") := rfl
  rw [hdec]
  dsimp only
  simp only [Option.getD_some]
  rw [hc]
  dsimp only
  have hblob : mC1.encodeBytes ⟨100, 100, 0⟩ ⟨"JPEG", none, false, none⟩ = zeros 2000 := by
    simp [mC1]
  rw [hblob]
  norm_num

/-- C2 counterexample: a 2000 × 2000 input (pixel area 4,000,000 >
3,000,000) that fits the target at the starting quality is returned with
its dimensions untouched and `was_resized = false` — there is no 0.7
pre-downscale and no unconditional `was_resized = true` for large areas. -/
theorem c2_counterexample :
    3000000 < 2000 * 2000 ∧
    (compressImage mUnder ⟨2000, 2000, 7⟩ 200 85 "auto" "JPEG").1 =
      .ok (⟨2000, 2000, 7⟩, ⟨10, "JPEG", 2000, 2000, 85, false, "image/jpeg"⟩) := by
  refine ⟨by norm_num, ?_⟩
  rw [compressImage_sweep_some mUnder ⟨2000, 2000, 7⟩ 200 85 85 10 [85]
    "auto" "JPEG" "JPEG" "image/jpeg" (by decide) sweep_mUnder_85]
  norm_num

/-- C3 counterexample: a run whose fallback resize shrinks the image to
50 × 50 still reports `width = height = 100` — the record holds the
pre-resize dimensions, not those of the final encoded image. For the run
shown, `scale_factor = (1024/4096) ** 0.5 = 0.5` exactly, so the float
dimension computation is `int(100 * 0.5) = 50`, as `mC3.scaleDims` says. -/
theorem c3_counterexample :
    (compressImage mC3 ⟨100, 100, 0⟩ 1 65 "auto" "JPEG").1 =
      .ok (⟨50, 50, 0⟩, ⟨100, "JPEG", 100, 100, 60, true, "image/jpeg"⟩) ∧
    (100 : Nat) ≠ 50 := by
  refine ⟨?_, by norm_num⟩
  rw [compressImage_sweep_some mC3 ⟨100, 100, 0⟩ 1 65 60 4096 [65]
    "auto" "JPEG" "JPEG" "image/jpeg" (by decide) sweep_mC3_65]
  rw [if_pos (by norm_num : (1 * 1024 : Nat) < 4096)]
  have hsd : mC3.scaleDims (1 * 1024) 4096 100 100 = (50, 50) := by norm_num [mC3]
  rw [hsd]
  rw [encSize_mC3]
  have hpr : pilResize mC3 ⟨100, 100, 0⟩ (50, 50).1 (50, 50).2 = ⟨50, 50, 0⟩ := by
    simp [pilResize, mC3]
  rw [hpr]
  norm_num

/-- C6 counterexample: with starting quality 100 (allowed, since the spec
gives `startQuality ∈ [1,100]`) and every encode oversized, one call
performs 9 encode attempts (8 sweep attempts at 100, 95, …, 65 plus the
fallback re-encode), exceeding the claimed bound of 6. -/
theorem c6_counterexample :
    ((compressImage mBig ⟨100, 100, 0⟩ 1 100 "auto" "JPEG").2.countP PEvent.isSave) = 9 ∧
    6 < 9 := by
  refine ⟨?_, by norm_num⟩
  rw [compressImage_sweep_some mBig ⟨100, 100, 0⟩ 1 100 60 2000
    [100, 95, 90, 85, 80, 75, 70, 65]
    "auto" "JPEG" "JPEG" "image/jpeg" (by decide) sweep_mBig_100]
  norm_num [List.countP_append, List.countP_map, List.countP_cons, PEvent.isSave,
    Function.comp]

/-- C7 counterexample: an explicit preference is not used verbatim — the
source uppercases it (`output_format.upper()`, line 207), so preference
`"jpeg"` yields `format_used = "JPEG" ≠ "jpeg"`. -/
theorem c7_counterexample :
    formatDecision "jpeg" "PNG" = ("JPEG", "image/jpeg") ∧ "JPEG" ≠ "jpeg" := by
  refine ⟨by decide, by decide⟩

/-- C8: with no upload value and an empty URL, `_invoke` yields exactly the
no-input error text and performs no fetch and no decode — no structured
record and no bytes. -/
theorem c8_no_input_fails_before_io (m : PILModel) (fetch : String → FetchOutcome)
    (tkb : Nat) (q : Int) (ofmt : String) :
    invoke m fetch none "" tkb q ofmt =
      ⟨[.text "错误：请提供图片文件或图片链接"], []⟩ ∧
    (invoke m fetch none "" tkb q ofmt).effs = [] ∧
    ∀ msg ∈ (invoke m fetch none "" tkb q ofmt).messages, msg.isText = true := by
  refine ⟨rfl, rfl, ?_⟩
  intro msg hm
  simp only [invoke, uploadTruthy] at hm
  simp at hm
  subst hm
  rfl

/-- C4: with a starting quality ≤ 60 the loop body of lines 211–228 never
executes, so line 232 reads the never-assigned `current_size` and the call
ends in the top-level `except` (lines 156–158) with a single error text —
no record, no bytes — for every encoder, hence even when the input is
already under the target budget. -/
theorem c4_low_quality_unbound_local (m : PILModel) (fetch : String → FetchOutcome)
    (data : ByteSeq) (image : PILImage) (fmtTag : Option String)
    (tkb : Nat) (q : Int) (ofmt : String)
    (hq : q ≤ 60) (hdec : m.decode data = some (image, fmtTag)) (hne : data ≠ []) :
    (qualitySweep m image (formatDecision ofmt (fmtTag.getD "JPEG")).1
      (tkb * 1024) q).attempts = [] ∧
    invoke m fetch (some (.rawBytes data)) "" tkb q ofmt =
      ⟨[.text ("图片压缩失败: " ++ unboundLocalMsg)], [.decodeEff data]⟩ := by
  have hq2 : ¬ 60 < q := by omega
  refine ⟨by rw [qualitySweep_of_le60 _ _ _ _ _ hq2], ?_⟩
  rw [invoke_rawBytes m fetch data tkb q ofmt hne]
  unfold invokeAfterBytes
  rw [hdec]
  dsimp only
  rw [compressImage_of_le60 m image tkb q ofmt (fmtTag.getD "JPEG") hq2]
  simp

/-- C9: whenever the upload value is falsy and the URL non-empty, `_invoke`
issues exactly one GET, with `timeout=30` and no retry; if the fetch raises
(non-success status via `raise_for_status` or a network failure), the call
yields only the download-failure text — no record, no bytes. -/
theorem c9_url_single_fetch (m : PILModel) (fetch : String → FetchOutcome)
    (image_file : Option UploadValue) (url : String) (tkb : Nat) (q : Int)
    (ofmt : String) (hfile : uploadTruthy image_file = false) (hurl : url ≠ "") :
    (invoke m fetch image_file url tkb q ofmt).effs.countP Eff.isFetch = 1 ∧
    (invoke m fetch image_file url tkb q ofmt).effs.get? 0 = some (.fetchEff url 30) ∧
    ∀ msg, fetch url = .failure msg →
      invoke m fetch image_file url tkb q ofmt =
        ⟨[.text ("下载图片失败: " ++ msg)], [.fetchEff url 30]⟩ := by
  have hbeq : (url == "") = false := by
    simp [hurl]
  have hinv : invoke m fetch image_file url tkb q ofmt =
      match fetch url with
      | .failure msg => ⟨[.text ("下载图片失败: " ++ msg)], [.fetchEff url 30]⟩
      | .success content =>
        invokeAfterBytes m content "url" tkb q ofmt [.fetchEff url 30] := by
    simp [invoke, hfile, hbeq]
  cases hfo : fetch url with
  | failure msg =>
    rw [hinv, hfo]
    refine ⟨rfl, rfl, ?_⟩
    intro msg2 h2
    cases h2
    rfl
  | success content =>
    rw [hinv, hfo]
    dsimp only
    have heffs := invokeAfterBytes_effs m content "url" tkb q ofmt [.fetchEff url 30]
    rw [heffs]
    refine ⟨by simp [Eff.isFetch], rfl, ?_⟩
    intro msg2 h2
    exact (FetchOutcome.noConfusion h2)

/-- C2 (amended): the code applies no area-based pre-downscale. For any
starting quality above 60, the result is `ok` and `was_resized` is true
exactly when the post-sweep size still exceeds the target; whenever the
sweep met the target, no resize happens at all and every encode observes
the original dimensions — all of this regardless of the pixel area. -/
theorem c2_amended_no_predownscale (m : PILModel) (image : PILImage)
    (tkb : Nat) (q : Int) (ofmt ogfmt fmt mime : String) (hq : 60 < q)
    (hfmt : formatDecision ofmt ogfmt = (fmt, mime)) :
    ∃ sz, (qualitySweep m image fmt (tkb * 1024) q).sizeOpt = some sz ∧
      (∃ img2 ci, (compressImage m image tkb q ofmt ogfmt).1 = .ok (img2, ci) ∧
        (ci.was_resized = true ↔ tkb * 1024 < sz)) ∧
      (sz ≤ tkb * 1024 →
        (compressImage m image tkb q ofmt ogfmt).2.countP PEvent.isResize = 0 ∧
        ∀ w h p, PEvent.saveEv w h p ∈ (compressImage m image tkb q ofmt ogfmt).2 →
          w = image.width ∧ h = image.height) := by
  obtain ⟨hne, hlast⟩ := qualitySweep_last m image fmt (tkb * 1024) q hq
  obtain ⟨a, ha⟩ := Option.isSome_iff_exists.mp (List.getLast?_isSome.mpr hne)
  obtain ⟨hsz, _, _⟩ := hlast a ha
  have hsw : qualitySweep m image fmt (tkb * 1024) q =
      ⟨(qualitySweep m image fmt (tkb * 1024) q).finalQuality,
       some (encSize m image fmt a),
       (qualitySweep m image fmt (tkb * 1024) q).attempts⟩ := by
    rw [← hsz]
  have hcomp := compressImage_sweep_some m image tkb q _ _ _ ofmt ogfmt fmt mime hfmt hsw
  refine ⟨encSize m image fmt a, hsz, ?_, ?_⟩
  · by_cases hlt : tkb * 1024 < encSize m image fmt a
    · rw [hcomp, if_pos hlt]
      exact ⟨_, _, rfl, by simp [hlt]⟩
    · rw [hcomp, if_neg hlt]
      exact ⟨_, _, rfl, by simp [hlt]⟩
  · intro hle
    have hlt : ¬ tkb * 1024 < encSize m image fmt a := by omega
    rw [hcomp, if_neg hlt]
    constructor
    · simp [List.countP_map, PEvent.isResize, Function.comp]
    · intro w hh p hmem
      simp only [List.mem_map] at hmem
      obtain ⟨a2, _, heq⟩ := hmem
      simp only [PEvent.saveEv.injEq] at heq
      exact ⟨heq.1.symm, heq.2.1.symm⟩

/-- C3 (amended): the `width`/`height` of the result record are always the
dimensions of the decoded input image, captured before the fallback
resize; when `was_resized = false` the returned image is the input image
itself. -/
theorem c3_amended_record_holds_preresize_dims (m : PILModel) (image : PILImage)
    (tkb : Nat) (q : Int) (ofmt ogfmt : String) (img2 : PILImage)
    (ci : CompressionInfo)
    (hok : (compressImage m image tkb q ofmt ogfmt).1 = .ok (img2, ci)) :
    ci.width = image.width ∧ ci.height = image.height ∧
    (ci.was_resized = false → img2 = image) := by
  by_cases hq : 60 < q
  · obtain ⟨hne, hlast⟩ :=
      qualitySweep_last m image (formatDecision ofmt ogfmt).1 (tkb * 1024) q hq
    obtain ⟨a, ha⟩ := Option.isSome_iff_exists.mp (List.getLast?_isSome.mpr hne)
    obtain ⟨hsz, _, _⟩ := hlast a ha
    have hsw : qualitySweep m image (formatDecision ofmt ogfmt).1 (tkb * 1024) q =
        ⟨(qualitySweep m image (formatDecision ofmt ogfmt).1 (tkb * 1024) q).finalQuality,
         some (encSize m image (formatDecision ofmt ogfmt).1 a),
         (qualitySweep m image (formatDecision ofmt ogfmt).1 (tkb * 1024) q).attempts⟩ := by
      rw [← hsz]
    have hcomp := compressImage_sweep_some m image tkb q _ _ _ ofmt ogfmt
      (formatDecision ofmt ogfmt).1 (formatDecision ofmt ogfmt).2 rfl hsw
    rw [hcomp] at hok
    by_cases hlt : tkb * 1024 < encSize m image (formatDecision ofmt ogfmt).1 a
    · rw [if_pos hlt] at hok
      simp only [Except.ok.injEq, Prod.mk.injEq] at hok
      obtain ⟨h1, h2⟩ := hok
      subst h2
      refine ⟨rfl, rfl, ?_⟩
      intro hfalse
      exact absurd hfalse (by simp)
    · rw [if_neg hlt] at hok
      simp only [Except.ok.injEq, Prod.mk.injEq] at hok
      obtain ⟨h1, h2⟩ := hok
      subst h1
      subst h2
      exact ⟨rfl, rfl, fun _ => rfl⟩
  · rw [compressImage_of_le60 m image tkb q ofmt ogfmt hq] at hok
    simp at hok

/-- C5: for starting quality above 60, the sweep attempts exactly the
qualities `q, q-5, q-10, …`, all above 60; every attempt but the last
exceeded the target, and the last one either met the target or was the
final quality above 60 (the next step would leave the `quality > 60`
guard). An input already at or under the target at the starting quality is
encoded exactly once and returns `was_resized = false`. -/
theorem c5_sweep_descends_and_stops (m : PILModel) (image : PILImage)
    (tkb : Nat) (q : Int) (ofmt ogfmt fmt mime : String) (hq : 60 < q)
    (hfmt : formatDecision ofmt ogfmt = (fmt, mime)) :
    (∀ i, i < (qualitySweep m image fmt (tkb * 1024) q).attempts.length →
      (qualitySweep m image fmt (tkb * 1024) q).attempts.get? i = some (q - 5 * i)) ∧
    (∀ a ∈ (qualitySweep m image fmt (tkb * 1024) q).attempts, 60 < a) ∧
    (∀ i, i + 1 < (qualitySweep m image fmt (tkb * 1024) q).attempts.length →
      tkb * 1024 < encSize m image fmt (q - 5 * i)) ∧
    (∀ a, (qualitySweep m image fmt (tkb * 1024) q).attempts.getLast? = some a →
      encSize m image fmt a ≤ tkb * 1024 ∨ a - 5 ≤ 60) ∧
    (encSize m image fmt q ≤ tkb * 1024 →
      (qualitySweep m image fmt (tkb * 1024) q).attempts = [q] ∧
      (compressImage m image tkb q ofmt ogfmt).2.countP PEvent.isSave = 1 ∧
      ∃ ci, (compressImage m image tkb q ofmt ogfmt).1 = .ok (image, ci) ∧
        ci.was_resized = false) := by
  refine ⟨?_, ?_, ?_, ?_, ?_⟩
  · intro i hi
    exact sweep_attempts_get m image fmt (tkb * 1024) ((q - 60).toNat) q i hi
  · intro a ha
    exact sweep_attempts_gt60 m image fmt (tkb * 1024) ((q - 60).toNat) q a ha
  · intro i hi
    exact sweep_attempts_fail_before_last m image fmt (tkb * 1024) ((q - 60).toNat) q i hi
  · intro a ha
    obtain ⟨_, hlast⟩ := qualitySweep_last m image fmt (tkb * 1024) q hq
    exact (hlast a ha).2.1
  · intro hs
    have hsw : qualitySweep m image fmt (tkb * 1024) q =
        ⟨q, some (encSize m image fmt q), [q]⟩ := by
      rw [qualitySweep_eq, if_pos hq]
      dsimp only
      rw [if_pos hs]
    have hcomp := compressImage_sweep_some m image tkb q q (encSize m image fmt q)
      [q] ofmt ogfmt fmt mime hfmt hsw
    have hlt : ¬ tkb * 1024 < encSize m image fmt q := by omega
    rw [hcomp, if_neg hlt]
    refine ⟨by rw [hsw], ?_, ⟨_, rfl, rfl⟩⟩
    simp [PEvent.isSave]

/-- C6 (amended): the fallback resize happens at most once and the sweep
terminates, each attempt dropping the quality by exactly 5; but the total
number of encode attempts is bounded by `⌈(q-60)/5⌉ + 1`, which is 6 only
for starting qualities up to 85 (the default) and reaches 9 at the
spec-allowed maximum of 100. -/
theorem c6_amended_attempt_bounds (m : PILModel) (image : PILImage)
    (tkb : Nat) (q : Int) (ofmt ogfmt fmt mime : String)
    (hfmt : formatDecision ofmt ogfmt = (fmt, mime)) :
    (∀ i, i < (qualitySweep m image fmt (tkb * 1024) q).attempts.length →
      (qualitySweep m image fmt (tkb * 1024) q).attempts.get? i = some (q - 5 * i)) ∧
    (compressImage m image tkb q ofmt ogfmt).2.countP PEvent.isResize ≤ 1 ∧
    (compressImage m image tkb q ofmt ogfmt).2.countP PEvent.isSave ≤
      ((q - 60).toNat + 4) / 5 + 1 ∧
    (q ≤ 85 → (compressImage m image tkb q ofmt ogfmt).2.countP PEvent.isSave ≤ 6) := by
  have hlen : (qualitySweep m image fmt (tkb * 1024) q).attempts.length ≤
      ((q - 60).toNat + 4) / 5 :=
    sweep_attempts_len m image fmt (tkb * 1024) ((q - 60).toNat) q
  refine ⟨?_, ?_⟩
  · intro i hi
    exact sweep_attempts_get m image fmt (tkb * 1024) ((q - 60).toNat) q i hi
  by_cases hq : 60 < q
  · obtain ⟨hne, hlast⟩ := qualitySweep_last m image fmt (tkb * 1024) q hq
    obtain ⟨a, ha⟩ := Option.isSome_iff_exists.mp (List.getLast?_isSome.mpr hne)
    obtain ⟨hsz, _, _⟩ := hlast a ha
    have hsw : qualitySweep m image fmt (tkb * 1024) q =
        ⟨(qualitySweep m image fmt (tkb * 1024) q).finalQuality,
         some (encSize m image fmt a),
         (qualitySweep m image fmt (tkb * 1024) q).attempts⟩ := by
      rw [← hsz]
    have hcomp := compressImage_sweep_some m image tkb q _ _ _ ofmt ogfmt fmt mime hfmt hsw
    have hsaves : ∀ l : List Int,
        (l.map (fun a => PEvent.saveEv image.width image.height (saveParamsFor fmt a))).countP
          PEvent.isSave = l.length := by
      intro l
      simp [List.countP_map, PEvent.isSave, Function.comp]
    by_cases hlt : tkb * 1024 < encSize m image fmt a
    · rw [hcomp, if_pos hlt]
      rw [List.countP_append, List.countP_append, hsaves]
      refine ⟨?_, ?_, ?_⟩
      · simp [List.countP_map, PEvent.isResize, Function.comp_def, List.countP_false]
      · simp [List.countP_cons, List.countP_nil, PEvent.isSave]
        omega
      · intro h85
        simp [List.countP_cons, List.countP_nil, PEvent.isSave]
        have : (q - 60).toNat ≤ 25 := by omega
        omega
    · rw [hcomp, if_neg hlt]
      rw [hsaves]
      refine ⟨?_, by omega, ?_⟩
      · simp [List.countP_map, PEvent.isResize, Function.comp_def, List.countP_false]
      · intro h85
        have : (q - 60).toNat ≤ 25 := by omega
        omega
  · rw [compressImage_of_le60 m image tkb q ofmt ogfmt hq]
    refine ⟨by simp, by simp, by intro h85; simp⟩

/-- C7 (amended): the output format and MIME type are the stated pure
function of preference and original format, except that an explicit
preference is uppercased for the format (and lowercased for the MIME
type), not used verbatim. -/
theorem c7_amended_format_decision (ofP og : String) :
    (og = "JPEG" ∨ og = "JPG" → formatDecision "auto" og = ("JPEG", "image/jpeg")) ∧
    formatDecision "auto" "PNG" = ("PNG", "image/png") ∧
    formatDecision "auto" "WEBP" = ("WEBP", "image/webp") ∧
    (og ≠ "JPEG" → og ≠ "JPG" → og ≠ "PNG" → og ≠ "WEBP" →
      formatDecision "auto" og = ("JPEG", "image/jpeg")) ∧
    (ofP ≠ "auto" →
      formatDecision ofP og = (strUpper ofP, "image/" ++ strLower ofP)) := by
  refine ⟨?_, by decide, by decide, ?_, ?_⟩
  · rintro (rfl | rfl) <;> decide
  · intro h1 h2 h3 h4
    simp [formatDecision, h1, h2, h3, h4]
  · intro h
    simp [formatDecision, h]

/-- The heap-instrumented `_compress_image` computes the same outcome as
the pure translation: on a one-cell store holding the input image, an
error is returned in exactly the same cases, and an `ok` reference points
at the image the pure function returns, with identical metadata. -/
theorem compressImageH_refines_pure (m : PILModel) (image : PILImage)
    (tkb : Nat) (q : Int) (ofmt ogfmt : String) :
    (∀ e, (compressImageH m [image] 0 tkb q ofmt ogfmt).2 = .error e ↔
      (compressImage m image tkb q ofmt ogfmt).1 = .error e) ∧
    (∀ r ci, (compressImageH m [image] 0 tkb q ofmt ogfmt).2 = .ok (r, ci) →
      ∃ img2, (compressImage m image tkb q ofmt ogfmt).1 = .ok (img2, ci) ∧
        heapGet (compressImageH m [image] 0 tkb q ofmt ogfmt).1 r = img2) := by
  unfold compressImageH compressImage
  dsimp only
  have hget : heapGet [image] 0 = image := rfl
  rw [hget]
  have hget2 : heapGet ([image] ++ [image]) [image].length = image := rfl
  rw [hget2]
  cases hso : (qualitySweep m image (formatDecision ofmt ogfmt).1 (tkb * 1024) q).sizeOpt with
  | none =>
    simp only [hso]
    refine ⟨fun e => by simp, ?_⟩
    intro r ci hc
    exact absurd hc (by simp)
  | some size0 =>
    simp only [hso]
    by_cases hlt : tkb * 1024 < size0
    · simp only [if_pos hlt]
      refine ⟨fun e => by simp, ?_⟩
      intro r ci hc
      simp only [Except.ok.injEq, Prod.mk.injEq] at hc
      obtain ⟨hr, hci⟩ := hc
      subst hr
      subst hci
      exact ⟨_, rfl, rfl⟩
    · simp only [if_neg hlt]
      refine ⟨fun e => by simp, ?_⟩
      intro r ci hc
      simp only [Except.ok.injEq, Prod.mk.injEq] at hc
      obtain ⟨hr, hci⟩ := hc
      subst hr
      subst hci
      exact ⟨_, rfl, rfl⟩

/-- C10: `_compress_image` never mutates any pre-existing image: it copies
its argument (line 171) and every later operation (`save`, `resize`) reads
or allocates, so after the call every cell of the original store — in
particular the input image with its pixel contents, width and height — is
unchanged. -/
theorem c10_compress_no_mutation (m : PILModel) (h : Heap) (imageRef tkb : Nat)
    (q : Int) (ofmt ogfmt : String) (r : Nat) (hr : r < h.length) :
    heapGet (compressImageH m h imageRef tkb q ofmt ogfmt).1 r = heapGet h r := by
  unfold compressImageH
  dsimp only
  split
  · simp only [heapGet]
    rw [List.getD_append _ _ _ _ hr]
  · split
    · simp only [heapGet]
      rw [List.getD_append _ _ _ _ (by simp; omega), List.getD_append _ _ _ _ hr]
    · simp only [heapGet]
      rw [List.getD_append _ _ _ _ hr]

/-! ## Witnesses: the hypothesis-bearing theorems applied at concrete inputs -/

theorem c4_witness :
    (qualitySweep mUnder ⟨2000, 2000, 7⟩
      (formatDecision "auto" ((some "JPEG").getD "JPEG")).1 (1 * 1024) 50).attempts = [] ∧
    invoke mUnder fetch404 (some (.rawBytes [0])) "" 1 50 "auto" =
      ⟨[.text ("图片压缩失败: " ++ unboundLocalMsg)], [.decodeEff [0]]⟩ :=
  c4_low_quality_unbound_local mUnder fetch404 [0] ⟨2000, 2000, 7⟩ (some "JPEG")
    1 50 "auto" (by decide) rfl (by decide)

theorem c5_witness :
    (∀ i, i < (qualitySweep mUnder ⟨2000, 2000, 7⟩ "JPEG" (200 * 1024) 85).attempts.length →
      (qualitySweep mUnder ⟨2000, 2000, 7⟩ "JPEG" (200 * 1024) 85).attempts.get? i =
        some (85 - 5 * (i : Int))) ∧
    (∀ a ∈ (qualitySweep mUnder ⟨2000, 2000, 7⟩ "JPEG" (200 * 1024) 85).attempts, 60 < a) ∧
    (∀ i : Nat, i + 1 < (qualitySweep mUnder ⟨2000, 2000, 7⟩ "JPEG" (200 * 1024) 85).attempts.length →
      200 * 1024 < encSize mUnder ⟨2000, 2000, 7⟩ "JPEG" (85 - 5 * (i : Int))) ∧
    (∀ a, (qualitySweep mUnder ⟨2000, 2000, 7⟩ "JPEG" (200 * 1024) 85).attempts.getLast? =
        some a →
      encSize mUnder ⟨2000, 2000, 7⟩ "JPEG" a ≤ 200 * 1024 ∨ a - 5 ≤ 60) ∧
    (encSize mUnder ⟨2000, 2000, 7⟩ "JPEG" 85 ≤ 200 * 1024 →
      (qualitySweep mUnder ⟨2000, 2000, 7⟩ "JPEG" (200 * 1024) 85).attempts = [85] ∧
      (compressImage mUnder ⟨2000, 2000, 7⟩ 200 85 "auto" "JPEG").2.countP PEvent.isSave = 1 ∧
      ∃ ci, (compressImage mUnder ⟨2000, 2000, 7⟩ 200 85 "auto" "JPEG").1 =
          .ok (⟨2000, 2000, 7⟩, ci) ∧ ci.was_resized = false) :=
  c5_sweep_descends_and_stops mUnder ⟨2000, 2000, 7⟩ 200 85 "auto" "JPEG"
    "JPEG" "image/jpeg" (by decide) (by decide)

theorem c9_witness :
    (invoke mUnder fetch404 none "http://e" 200 85 "auto").effs.countP Eff.isFetch = 1 ∧
    (invoke mUnder fetch404 none "http://e" 200 85 "auto").effs.get? 0 =
      some (.fetchEff "http://e" 30) ∧
    ∀ msg, fetch404 "http://e" = .failure msg →
      invoke mUnder fetch404 none "http://e" 200 85 "auto" =
        ⟨[.text ("下载图片失败: " ++ msg)], [.fetchEff "http://e" 30]⟩ :=
  c9_url_single_fetch mUnder fetch404 none "http://e" 200 85 "auto" rfl (by decide)

theorem c2_amended_witness :
    ∃ sz, (qualitySweep mUnder ⟨2000, 2000, 7⟩ "JPEG" (200 * 1024) 85).sizeOpt = some sz ∧
      (∃ img2 ci, (compressImage mUnder ⟨2000, 2000, 7⟩ 200 85 "auto" "JPEG").1 =
          .ok (img2, ci) ∧ (ci.was_resized = true ↔ 200 * 1024 < sz)) ∧
      (sz ≤ 200 * 1024 →
        (compressImage mUnder ⟨2000, 2000, 7⟩ 200 85 "auto" "JPEG").2.countP
          PEvent.isResize = 0 ∧
        ∀ w h p, PEvent.saveEv w h p ∈
            (compressImage mUnder ⟨2000, 2000, 7⟩ 200 85 "auto" "JPEG").2 →
          w = 2000 ∧ h = 2000) :=
  c2_amended_no_predownscale mUnder ⟨2000, 2000, 7⟩ 200 85 "auto" "JPEG"
    "JPEG" "image/jpeg" (by decide) (by decide)

theorem c3_amended_witness :
    (2000 : Nat) = 2000 ∧ (2000 : Nat) = 2000 ∧
    (false = false → (⟨2000, 2000, 7⟩ : PILImage) = ⟨2000, 2000, 7⟩) :=
  c3_amended_record_holds_preresize_dims mUnder ⟨2000, 2000, 7⟩ 200 85 "auto" "JPEG"
    ⟨2000, 2000, 7⟩ ⟨10, "JPEG", 2000, 2000, 85, false, "image/jpeg"⟩
    (by
      rw [compressImage_sweep_some mUnder ⟨2000, 2000, 7⟩ 200 85 85 10 [85]
        "auto" "JPEG" "JPEG" "image/jpeg" (by decide) sweep_mUnder_85]
      norm_num)

theorem c6_amended_witness :
    (∀ i, i < (qualitySweep mUnder ⟨2000, 2000, 7⟩ "JPEG" (200 * 1024) 85).attempts.length →
      (qualitySweep mUnder ⟨2000, 2000, 7⟩ "JPEG" (200 * 1024) 85).attempts.get? i =
        some (85 - 5 * (i : Int))) ∧
    (compressImage mUnder ⟨2000, 2000, 7⟩ 200 85 "auto" "JPEG").2.countP PEvent.isResize ≤ 1 ∧
    (compressImage mUnder ⟨2000, 2000, 7⟩ 200 85 "auto" "JPEG").2.countP PEvent.isSave ≤
      (((85 : Int) - 60).toNat + 4) / 5 + 1 ∧
    ((85 : Int) ≤ 85 →
      (compressImage mUnder ⟨2000, 2000, 7⟩ 200 85 "auto" "JPEG").2.countP PEvent.isSave ≤ 6) :=
  c6_amended_attempt_bounds mUnder ⟨2000, 2000, 7⟩ 200 85 "auto" "JPEG"
    "JPEG" "image/jpeg" (by decide)

theorem c7_amended_witness :
    ("BMP" = "JPEG" ∨ "BMP" = "JPG" → formatDecision "auto" "BMP" = ("JPEG", "image/jpeg")) ∧
    formatDecision "auto" "PNG" = ("PNG", "image/png") ∧
    formatDecision "auto" "WEBP" = ("WEBP", "image/webp") ∧
    ("BMP" ≠ "JPEG" → "BMP" ≠ "JPG" → "BMP" ≠ "PNG" → "BMP" ≠ "WEBP" →
      formatDecision "auto" "BMP" = ("JPEG", "image/jpeg")) ∧
    ("webp" ≠ "auto" →
      formatDecision "webp" "BMP" = (strUpper "webp", "image/" ++ strLower "webp")) :=
  c7_amended_format_decision "webp" "BMP"

theorem c8_witness :
    invoke mUnder fetch404 none "" 200 85 "auto" =
      ⟨[.text "错误：请提供图片文件或图片链接"], []⟩ ∧
    (invoke mUnder fetch404 none "" 200 85 "auto").effs = [] ∧
    ∀ msg ∈ (invoke mUnder fetch404 none "" 200 85 "auto").messages, msg.isText = true :=
  c8_no_input_fails_before_io mUnder fetch404 200 85 "auto"

theorem c10_witness :
    heapGet (compressImageH mUnder [⟨2000, 2000, 7⟩, ⟨1, 2, 3⟩] 0 200 85 "auto" "JPEG").1 1 =
      heapGet [⟨2000, 2000, 7⟩, ⟨1, 2, 3⟩] 1 :=
  c10_compress_no_mutation mUnder [⟨2000, 2000, 7⟩, ⟨1, 2, 3⟩] 0 200 85 "auto" "JPEG" 1
    (by decide)

end ImagePress
